import Mathlib

/-!
# Verification of the UGameData content resolver (GameData.cpp / GameData.h)

Shallow embedding of the data-loading and name-resolution layer of the
repository. Engine containers are modelled as follows:

* `TArray<T>` is a `List T`; for the quiz options array, where the code
  iterates up to `Max()` (the allocated capacity) rather than `Num()`
  (the logical element count), the array is modelled with its backing
  store of `Max()` slots plus the logical count `num`, so that reads
  past the logical count return the (stale) slot contents, matching
  shipping-build `TArray` semantics.
* `TMap<K,V>` is an association list without duplicate keys; `Add`
  replaces the value in place when the key is present and appends
  otherwise, as `TMap::Add` does.
* Engine object handles (`USoundBase*`, `UTexture2D*`, `AActor*`) are
  records carrying an identity and the display name / first tag the
  code reads; nullable pointers in pools are `Option` values.
* `FName` comparison in the engine is case-insensitive (two `FName`s
  that differ only in case share a comparison index and compare equal),
  so the tag test `cp->Tags[0] == FName(ActorName)` is modelled by
  comparing lowercased strings.
* The external JSON decoder (`ReadStructFromJsonFile`) is out of scope;
  each loader takes the decoder output (structure, success flag,
  message) as explicit arguments. The diagnostic sink
  (`GEngine->AddOnScreenDebugMessage`) is modelled by an emitted-message
  list returned alongside the result, assuming the sink is present.
-/

namespace GameData

/-- A narrative sound asset: identity plus the display name `GetName()` returns. -/
structure USoundBase where
  id : Nat
  name : String
deriving DecidableEq, Repr, Inhabited

/-- An image asset: identity plus the display name `GetName()` returns. -/
structure UTexture2D where
  id : Nat
  name : String
deriving DecidableEq, Repr, Inhabited

/-- A scene actor: identity plus its first tag `Tags[0]` (the only tag the code reads). -/
structure AActor where
  id : Nat
  firstTag : String
deriving DecidableEq, Repr, Inhabited

/-- `FName` equality: the engine compares names case-insensitively, modelled
by comparing the character sequences after per-character lowering. -/
def fnameEq (a b : String) : Bool :=
  a.data.map Char.toLower == b.data.map Char.toLower

/-- The closed instruction-kind enumeration; `LearnMoreProposed` is the first
value. Modelled from the spec for the declaration order (the enum is declared
in `JsonHelper.h`, which is not part of the sources); the string-to-enum
mapping itself is in `GameData.cpp`. -/
inductive Instructions where
  | LearnMoreProposed
  | LearnMoreCompleted
  | HowToSelection
  | QuizProposed
  | LearnMoreNavigation
  | MiniGameQuiz_Context
  | MiniGameQuiz_QuestionInstruction
  | Inactivty_Instruction
deriving DecidableEq, Repr, Inhabited

/-- `TMap::Add`: replace the value in place when the key is present, append otherwise. -/
def tmapAdd {K V : Type} [DecidableEq K] : List (K × V) → K → V → List (K × V)
  | [], k, v => [(k, v)]
  | p :: rest, k, v => if p.1 = k then (k, v) :: rest else p :: tmapAdd rest k v

/-- `TMap` lookup: the value stored under a key, if any. -/
def tmapFind? {K V : Type} [DecidableEq K] (m : List (K × V)) (k : K) : Option V :=
  (m.find? (fun p => decide (p.1 = k))).map Prod.snd

/-- Inner loop of `UGameData::GetSoundByName`: scan the whole pool for one
requested name, appending every non-null match not already collected. -/
def soundScan (NarrativeSounds : List (Option USoundBase)) (soundName : String)
    (acc : List USoundBase) : List USoundBase :=
  NarrativeSounds.foldl
    (fun sounds s =>
      match s with
      | none => sounds
      | some Sound =>
          if Sound.name = soundName ∧ Sound ∉ sounds then sounds ++ [Sound] else sounds)
    acc

/-- `UGameData::GetSoundByName`. -/
def getSoundByName (SoundNames : List String) (NarrativeSounds : List (Option USoundBase)) :
    List USoundBase :=
  SoundNames.foldl (fun sounds soundName => soundScan NarrativeSounds soundName sounds) []

/-- Inner loop of `UGameData::GetImageByName`. -/
def imageScan (Images : List (Option UTexture2D)) (imageName : String)
    (acc : List UTexture2D) : List UTexture2D :=
  Images.foldl
    (fun foundImages s =>
      match s with
      | none => foundImages
      | some Image =>
          if Image.name = imageName ∧ Image ∉ foundImages then foundImages ++ [Image]
          else foundImages)
    acc

/-- `UGameData::GetImageByName`. -/
def getImageByName (ImageNames : List String) (Images : List (Option UTexture2D)) :
    List UTexture2D :=
  ImageNames.foldl (fun foundImages imageName => imageScan Images imageName foundImages) []

/-- `UGameData::GetActorByName`: first non-null actor whose first tag equals the
name under `FName` comparison; returns the actor, the success flag and the
info message the code writes through its out-parameters. -/
def getActorByName (ActorName : String) (CPActors : List (Option AActor)) :
    Option AActor × Bool × String :=
  match CPActors with
  | [] => (none, false, "Actor Not Found")
  | cp :: rest =>
      match cp with
      | some a =>
          if fnameEq a.firstTag ActorName then (some a, true, "Actor Found")
          else getActorByName ActorName rest
      | none => getActorByName ActorName rest

/-- `UGameData::StringToInstructions`. -/
def stringToInstructions (InstructionType : String) : Instructions :=
  if InstructionType = "LearnMoreProposed" then Instructions.LearnMoreProposed
  else if InstructionType = "LearnMoreCompleted" then Instructions.LearnMoreCompleted
  else if InstructionType = "HowToSelection" then Instructions.HowToSelection
  else if InstructionType = "QuizProposed" then Instructions.QuizProposed
  else if InstructionType = "LearnMoreNavigation" then Instructions.LearnMoreNavigation
  else if InstructionType = "MiniGameQuiz_Context" then Instructions.MiniGameQuiz_Context
  else if InstructionType = "MiniGameQuiz_QuestionInstruction" then
    Instructions.MiniGameQuiz_QuestionInstruction
  else if InstructionType = "Inactivity_Instruction" then Instructions.Inactivty_Instruction
  else Instructions.LearnMoreProposed

/-! ## Decoded JSON structures and loader outputs -/

/-- One record of the instructions JSON file (`FInstructionsData.Data` element). -/
structure FInstructionRecord where
  InstructionType : String
  TitleCaptionKey : String
  CaptionKeys : List String
  EnglishNarrationSoundNames : List String
  FrenchNarrationSoundNames : List String
deriving DecidableEq, Repr, Inhabited

/-- The decoded instructions file. -/
structure FInstructionsData where
  Data : List FInstructionRecord
deriving DecidableEq, Repr, Inhabited

/-- Narration bundle built per instruction record. -/
structure FInstructionNarration where
  m_TitleKey : String
  m_Keys : List String
  m_EnglishNarrationSounds : List USoundBase
  m_FrenchNarrationSounds : List USoundBase
deriving DecidableEq, Repr, Inhabited

/-- Output of `LoadInstructionsData`. -/
structure FInstructionGameData where
  InstructionKeyMap : List (Instructions × FInstructionNarration)
deriving DecidableEq, Repr, Inhabited

/-- One record of the checkpoints JSON file. -/
structure FCheckpointRecord where
  CheckpointName : String
  CheckpointFrameNumber : Int
  TitleCaptionKey : String
  CaptionKeys : List String
  EnglishNarrationSoundNames : List String
  FrenchNarrationSoundNames : List String
  ShouldStopCamera : Bool
  HasLearnMoreOption : Bool
  HasQuiz : Bool
  NumOfLearnMoreOption : Int
deriving DecidableEq, Repr, Inhabited

/-- The decoded checkpoints file. -/
structure FCheckpointsData where
  Data : List FCheckpointRecord
deriving DecidableEq, Repr, Inhabited

/-- Narration bundle with flags built per checkpoint record. -/
structure FNarrationKeys where
  m_TitleKey : String
  m_Keys : List String
  m_EnglishNarrationSounds : List USoundBase
  m_FrenchNarrationSounds : List USoundBase
  m_ShouldStopCamera : Bool
  m_HasLearnMoreOption : Bool
  m_HasQuiz : Bool
  m_NumOfLearnMoreOptions : Int
deriving DecidableEq, Repr, Inhabited

/-- Output of `LoadCheckpointsData`: actor sequence and the two actor-keyed maps. -/
structure FCheckpointsGameData where
  ActorsToFollow : List (Option AActor)
  ActorFrameMap : List (Option AActor × Int)
  ActorKeyMap : List (Option AActor × FNarrationKeys)
deriving DecidableEq, Repr, Inhabited

/-- One record of the learn-more JSON file. -/
structure FLearnMoreRecord where
  CorrespondingCPIndex : Int
  TitleCaptionKey : String
  CaptionKeys : List String
  EnglishNarrationSoundNames : List String
  FrenchNarrationSoundNames : List String
  ImagesNames : List String
  ImagesSources : List String
deriving DecidableEq, Repr, Inhabited

/-- The decoded learn-more file. -/
structure FLearnMoreData where
  Data : List FLearnMoreRecord
deriving DecidableEq, Repr, Inhabited

/-- Learn-more narration bundle (also reused by `PopulateQuizUI`);
default-constructed with empty strings, empty lists and index 0. -/
structure FLearnMoreNarration where
  m_TitleKey : String
  m_Keys : List String
  m_EnglishNarrationSounds : List USoundBase
  m_FrenchNarrationSounds : List USoundBase
  m_Images : List UTexture2D
  CorrespondingCPIndex : Int
  m_SourceName : String
deriving DecidableEq, Repr

instance : Inhabited FLearnMoreNarration :=
  ⟨{ m_TitleKey := ""
     m_Keys := []
     m_EnglishNarrationSounds := []
     m_FrenchNarrationSounds := []
     m_Images := []
     CorrespondingCPIndex := 0
     m_SourceName := "" }⟩

/-- Output of `PopulateLearnMoreUI`. -/
structure FLearnMoreGameData where
  LearnMoreData : List FLearnMoreNarration
deriving DecidableEq, Repr, Inhabited

/-- One quiz option. -/
structure FQuizQuestionOption where
  OptionName : String
  OptionDescription : String
  EnglishNarrationSound : String
  FrenchNarrationSound : String
deriving DecidableEq, Repr, Inhabited

/-- The options `TArray`, modelled with its backing store (`store.length` is the
allocated capacity `Max()`) and the logical element count `num` (`Num()`);
slots at positions `num ≤ i < store.length` are the stale allocated slots a
shipping build reads when indexing past the logical count. -/
structure FQuizOptionsArray where
  store : List FQuizQuestionOption
  num : Nat
deriving DecidableEq, Repr, Inhabited

/-- `TArray::Max()`: the allocated capacity. -/
def FQuizOptionsArray.Max (a : FQuizOptionsArray) : Nat :=
  a.store.length

/-- `TArray::Num()`: the logical element count. -/
def FQuizOptionsArray.Num (a : FQuizOptionsArray) : Nat :=
  a.num

/-- The `QuestionOptions` substructure of a quiz question. -/
structure FQuizQuestionOptions where
  Options : FQuizOptionsArray
deriving DecidableEq, Repr, Inhabited

/-- One quiz question. -/
structure FQuizQuestion where
  QuestionOptions : FQuizQuestionOptions
deriving DecidableEq, Repr, Inhabited

/-- The decoded quiz file. -/
structure FQuizQuestions where
  m_Questions : List FQuizQuestion
deriving DecidableEq, Repr, Inhabited

/-- Output of `PopulateQuizUI`: option position to narration bundle. -/
structure FTilesGameData where
  LearnMoreKeyMap : List (Nat × FLearnMoreNarration)
deriving DecidableEq, Repr, Inhabited

/-! ## Loaders

Each loader takes the external decoder's output (decoded structure, success
flag, message) as explicit arguments and returns its result paired with the
list of diagnostic messages it emits to the on-screen sink. -/

/-- Loop body of `LoadInstructionsData`: build the narration bundle for one
record, add it to the map keyed by the converted instruction type, and emit
the decode message when the decode failed. -/
def instructionsStep (NarrativeSounds : List (Option USoundBase)) (success : Bool)
    (message : String) (acc : FInstructionGameData × List String)
    (r : FInstructionRecord) : FInstructionGameData × List String :=
  let narrationKeys : FInstructionNarration :=
    { m_TitleKey := r.TitleCaptionKey
      m_Keys := r.CaptionKeys
      m_EnglishNarrationSounds := getSoundByName r.EnglishNarrationSoundNames NarrativeSounds
      m_FrenchNarrationSounds := getSoundByName r.FrenchNarrationSoundNames NarrativeSounds }
  (⟨tmapAdd acc.1.InstructionKeyMap (stringToInstructions r.InstructionType) narrationKeys⟩,
    if success then acc.2 else acc.2 ++ [message])

/-- `UGameData::LoadInstructionsData`, given the decoder's output for the file
at the requested path. -/
def loadInstructionsData (dataStructure : FInstructionsData) (success : Bool)
    (message : String) (NarrativeSounds : List (Option USoundBase)) :
    FInstructionGameData × List String :=
  dataStructure.Data.foldl (instructionsStep NarrativeSounds success message) (⟨[]⟩, [])

/-- The narration bundle `LoadCheckpointsData` builds for one record. -/
def checkpointNarration (NarrativeSounds : List (Option USoundBase))
    (r : FCheckpointRecord) : FNarrationKeys :=
  { m_TitleKey := r.TitleCaptionKey
    m_Keys := r.CaptionKeys
    m_EnglishNarrationSounds := getSoundByName r.EnglishNarrationSoundNames NarrativeSounds
    m_FrenchNarrationSounds := getSoundByName r.FrenchNarrationSoundNames NarrativeSounds
    m_ShouldStopCamera := r.ShouldStopCamera
    m_HasLearnMoreOption := r.HasLearnMoreOption
    m_HasQuiz := r.HasQuiz
    m_NumOfLearnMoreOptions := r.NumOfLearnMoreOption }

/-- Loop body of `LoadCheckpointsData`: resolve the actor (overwriting the
local success flag and message), append it to `ActorsToFollow`, `Add` the
frame number and narration bundle under the actor key, and emit the message
when resolution failed. -/
def checkpointsStep (NarrativeSounds : List (Option USoundBase))
    (CPActors : List (Option AActor)) (acc : FCheckpointsGameData × List String)
    (r : FCheckpointRecord) : FCheckpointsGameData × List String :=
  let res := getActorByName r.CheckpointName CPActors
  let actor := res.1
  let success := res.2.1
  let message := res.2.2
  let narrationKeys := checkpointNarration NarrativeSounds r
  (⟨acc.1.ActorsToFollow ++ [actor],
    tmapAdd acc.1.ActorFrameMap actor r.CheckpointFrameNumber,
    tmapAdd acc.1.ActorKeyMap actor narrationKeys⟩,
    if success then acc.2 else acc.2 ++ [message])

/-- Record-processing loop of `UGameData::LoadCheckpointsData`, applied to the
structure held in the function-local static (the decode's success flag and
message are overwritten by `GetActorByName` before every read, so they do not
appear here). -/
def loadCheckpointsDataCore (DataStructure : FCheckpointsData)
    (NarrativeSounds : List (Option USoundBase)) (CPActors : List (Option AActor)) :
    FCheckpointsGameData × List String :=
  DataStructure.Data.foldl (checkpointsStep NarrativeSounds CPActors) (⟨[], [], []⟩, [])

/-- `UGameData::LoadCheckpointsData` with the function-local
`static FCheckpointsData DataStructure` made explicit: `cache` is the static
before the call (`none` before the first call), the decoder runs only when the
static is uninitialized, and the updated static is returned alongside the
result. -/
def loadCheckpointsData (decode : String → FCheckpointsData × Bool × String)
    (cache : Option FCheckpointsData) (path : String)
    (NarrativeSounds : List (Option USoundBase)) (CPActors : List (Option AActor)) :
    (FCheckpointsGameData × List String) × Option FCheckpointsData :=
  let DataStructure :=
    match cache with
    | some d => d
    | none => (decode path).1
  (loadCheckpointsDataCore DataStructure NarrativeSounds CPActors, some DataStructure)

/-- The narration bundle `PopulateLearnMoreUI` builds for one matching record
(fields not assigned by the loop keep their default-constructed values). -/
def learnMoreNarration (NarrativeSounds : List (Option USoundBase))
    (Images : List (Option UTexture2D)) (d : FLearnMoreRecord) : FLearnMoreNarration :=
  { m_FrenchNarrationSounds := getSoundByName d.FrenchNarrationSoundNames NarrativeSounds
    m_EnglishNarrationSounds := getSoundByName d.EnglishNarrationSoundNames NarrativeSounds
    m_Images := getImageByName d.ImagesNames Images
    CorrespondingCPIndex := d.CorrespondingCPIndex
    m_TitleKey := d.TitleCaptionKey
    m_Keys := d.CaptionKeys
    m_SourceName :=
      match d.ImagesSources with
      | [] => ""
      | s :: _ => s }

/-- `UGameData::PopulateLearnMoreUI`, given the decoder's output. The function
body never reads the decode success flag nor writes to the diagnostic sink, so
the emitted-message list is always empty. -/
def populateLearnMoreUI (dataStructure : FLearnMoreData) (success : Bool)
    (message : String) (CurrentActorIndex : Int)
    (NarrativeSounds : List (Option USoundBase)) (Images : List (Option UTexture2D)) :
    FLearnMoreGameData × List String :=
  (⟨dataStructure.Data.foldl
      (fun acc d =>
        if d.CorrespondingCPIndex = CurrentActorIndex then
          acc ++ [learnMoreNarration NarrativeSounds Images d]
        else acc)
      []⟩,
    [])

/-- `UGameData::LoadQuizQuestions`, given the decoder's output for the fixed
quiz file: returns the data unchanged and emits the message on failure. -/
def loadQuizQuestions (quizData : FQuizQuestions) (success : Bool) (message : String) :
    FQuizQuestions × List String :=
  (quizData, if success then [] else [message])

/-- Update of the (loop-external) narration local in one `PopulateQuizUI`
iteration for option position `i`: the caption-key list accumulates, the other
fields are overwritten. -/
def quizStepNarr (NarrativeSounds : List (Option USoundBase)) (options : FQuizOptionsArray)
    (i : Nat) (prev : FLearnMoreNarration) : FLearnMoreNarration :=
  let opt := options.store.getD i default
  { prev with
    m_TitleKey := opt.OptionName
    m_Keys := prev.m_Keys ++ [opt.OptionDescription]
    m_EnglishNarrationSounds := getSoundByName [opt.EnglishNarrationSound] NarrativeSounds
    m_FrenchNarrationSounds := getSoundByName [opt.FrenchNarrationSound] NarrativeSounds }

/-- Loop body of `PopulateQuizUI` for option position `i`: the narration local
is declared once outside the loop, so its caption-key list accumulates across
iterations while the other fields are overwritten; the updated bundle is
`Add`ed under key `i`. -/
def quizStep (NarrativeSounds : List (Option USoundBase)) (options : FQuizOptionsArray)
    (acc : List (Nat × FLearnMoreNarration) × FLearnMoreNarration) (i : Nat) :
    List (Nat × FLearnMoreNarration) × FLearnMoreNarration :=
  let narration := quizStepNarr NarrativeSounds options i acc.2
  (tmapAdd acc.1 i narration, narration)

/-- `UGameData::PopulateQuizUI`: iterates option positions `0 ≤ i < Max()`
(the capacity bound of the options array, not the logical count `Num()`). -/
def populateQuizUI (NarrativeSounds : List (Option USoundBase))
    (QuizQuestions : FQuizQuestions) (CurrentQuestionIndex : Nat) : FTilesGameData :=
  let options :=
    (QuizQuestions.m_Questions.getD CurrentQuestionIndex default).QuestionOptions.Options
  ⟨((List.range options.Max).foldl (quizStep NarrativeSounds options) ([], default)).1⟩

/-! ## Fixtures for concrete evaluations -/

/-- A checkpoint record used in concrete evaluations. -/
def recA : FCheckpointRecord :=
  { CheckpointName := "CP_1"
    CheckpointFrameNumber := 7
    TitleCaptionKey := "title_a"
    CaptionKeys := []
    EnglishNarrationSoundNames := []
    FrenchNarrationSoundNames := []
    ShouldStopCamera := false
    HasLearnMoreOption := false
    HasQuiz := false
    NumOfLearnMoreOption := 0 }

/-- A second checkpoint record used in concrete evaluations. -/
def recB : FCheckpointRecord :=
  { CheckpointName := "CP_2"
    CheckpointFrameNumber := 9
    TitleCaptionKey := "title_b"
    CaptionKeys := []
    EnglishNarrationSoundNames := []
    FrenchNarrationSoundNames := []
    ShouldStopCamera := true
    HasLearnMoreOption := false
    HasQuiz := false
    NumOfLearnMoreOption := 0 }

/-- A decoder whose output depends on the path: one record for the first tour
file, none for any other path. -/
def decodeEx : String → FCheckpointsData × Bool × String :=
  fun p => if p = "tour_a.json" then (⟨[recA]⟩, true, "ok") else (⟨[]⟩, true, "ok")

/-- A learn-more record with only the owning-checkpoint index and title set. -/
def lmRec (idx : Int) (title : String) : FLearnMoreRecord :=
  { CorrespondingCPIndex := idx
    TitleCaptionKey := title
    CaptionKeys := []
    EnglishNarrationSoundNames := []
    FrenchNarrationSoundNames := []
    ImagesNames := []
    ImagesSources := [] }

/-- A quiz with one question whose options array has two logical elements and
one extra allocated slot (capacity 3, logical count 2). -/
def quizEx : FQuizQuestions :=
  ⟨[⟨⟨⟨[⟨"N0", "D0", "E0", "F0"⟩, ⟨"N1", "D1", "E1", "F1"⟩, ⟨"", "", "", ""⟩], 2⟩⟩⟩]⟩

/-! ## Derived forms used in theorem statements -/

/-- Whether `GetActorByName` would accept this candidate: non-null and first
tag equal to the target name under `FName` comparison. -/
def actorMatches (ActorName : String) (cp : Option AActor) : Bool :=
  match cp with
  | some a => fnameEq a.firstTag ActorName
  | none => false

/-- Folding `TMap::Add` over a list of key-value pairs. -/
def foldPairs {K V : Type} [DecidableEq K] (m : List (K × V)) (ps : List (K × V)) :
    List (K × V) :=
  ps.foldl (fun m p => tmapAdd m p.1 p.2) m

/-- Key list accumulated by repeated `TMap::Add`: new keys append, existing
keys keep their slot. -/
def keysAccum {K : Type} [DecidableEq K] (ks : List K) (l : List K) : List K :=
  l.foldl (fun ks k => if k ∈ ks then ks else ks ++ [k]) ks

/-- The narration bundle `PopulateQuizUI` holds right after processing option
position `i`: the title and the sound lists come from slot `i`, while the
caption-key list has accumulated the descriptions of slots `0` through `i`. -/
def quizNarr (NarrativeSounds : List (Option USoundBase)) (options : FQuizOptionsArray)
    (i : Nat) : FLearnMoreNarration :=
  { m_TitleKey := (options.store.getD i default).OptionName
    m_Keys := (options.store.take (i + 1)).map FQuizQuestionOption.OptionDescription
    m_EnglishNarrationSounds :=
      getSoundByName [(options.store.getD i default).EnglishNarrationSound] NarrativeSounds
    m_FrenchNarrationSounds :=
      getSoundByName [(options.store.getD i default).FrenchNarrationSound] NarrativeSounds
    m_Images := []
    CorrespondingCPIndex := 0
    m_SourceName := "" }

/-- The narration local of `PopulateQuizUI` before step `n`: default before the
first iteration, afterwards the bundle left by the previous iteration. -/
def quizNarrAux (NarrativeSounds : List (Option USoundBase))
    (options : FQuizOptionsArray) : Nat → FLearnMoreNarration
  | 0 => default
  | n + 1 => quizNarr NarrativeSounds options n

/-! ## Helper lemmas: `TMap` model -/

theorem tmapAdd_keys {K V : Type} [DecidableEq K] (m : List (K × V)) (k : K) (v : V) :
    (tmapAdd m k v).map Prod.fst =
      if k ∈ m.map Prod.fst then m.map Prod.fst else m.map Prod.fst ++ [k] := by
  induction m with
  | nil => simp [tmapAdd]
  | cons p rest ih =>
      by_cases h : p.1 = k
      · simp [tmapAdd, h]
      · simp only [tmapAdd, if_neg h, List.map_cons, ih]
        have hk : k ∈ p.1 :: rest.map Prod.fst ↔ k ∈ rest.map Prod.fst := by
          constructor
          · intro hmem
            rcases List.mem_cons.mp hmem with he | hm
            · exact absurd he.symm h
            · exact hm
          · exact List.mem_cons_of_mem _
        by_cases hm : k ∈ rest.map Prod.fst
        · simp [hm, hk, List.mem_cons]
        · simp only [List.mem_cons]
          rw [if_neg hm, if_neg (by intro hc; rcases hc with he | hm2; exact h he.symm; exact hm hm2)]
          simp

theorem tmapAdd_of_not_mem {K V : Type} [DecidableEq K] (m : List (K × V)) (k : K) (v : V)
    (h : k ∉ m.map Prod.fst) : tmapAdd m k v = m ++ [(k, v)] := by
  induction m with
  | nil => rfl
  | cons p rest ih =>
      have h1 : p.1 ≠ k := by
        intro he
        exact h (by simp [he])
      have h2 : k ∉ rest.map Prod.fst := by
        intro hm
        exact h (by simp [hm])
      simp [tmapAdd, h1, ih h2]

theorem tmapFind?_tmapAdd_self {K V : Type} [DecidableEq K] (m : List (K × V)) (k : K) (v : V) :
    tmapFind? (tmapAdd m k v) k = some v := by
  induction m with
  | nil => simp [tmapAdd, tmapFind?, List.find?]
  | cons p rest ih =>
      by_cases h : p.1 = k
      · simp [tmapAdd, h, tmapFind?, List.find?]
      · simp only [tmapAdd, if_neg h]
        simpa [tmapFind?, List.find?, h] using ih

theorem tmapFind?_tmapAdd_ne {K V : Type} [DecidableEq K] (m : List (K × V)) (k k' : K) (v : V)
    (h : k' ≠ k) : tmapFind? (tmapAdd m k' v) k = tmapFind? m k := by
  induction m with
  | nil => simp [tmapAdd, tmapFind?, List.find?, h]
  | cons p rest ih =>
      by_cases hp : p.1 = k'
      · simp [tmapAdd, hp, tmapFind?, List.find?, h, hp ▸ h]
      · simp only [tmapAdd, if_neg hp]
        by_cases hpk : p.1 = k
        · simp [tmapFind?, List.find?, hpk]
        · simpa [tmapFind?, List.find?, hpk] using ih

theorem tmapAdd_length_keys {K V : Type} [DecidableEq K] (m : List (K × V)) (k : K) (v : V) :
    (tmapAdd m k v).length =
      if k ∈ m.map Prod.fst then m.length else m.length + 1 := by
  have h := tmapAdd_keys m k v
  by_cases hm : k ∈ m.map Prod.fst
  · have := congrArg List.length h
    simpa [hm] using this
  · have := congrArg List.length h
    simpa [hm] using this

theorem foldPairs_nil {K V : Type} [DecidableEq K] (m : List (K × V)) :
    foldPairs m [] = m := rfl

theorem foldPairs_cons {K V : Type} [DecidableEq K] (m : List (K × V)) (p : K × V)
    (ps : List (K × V)) : foldPairs m (p :: ps) = foldPairs (tmapAdd m p.1 p.2) ps := rfl

theorem foldPairs_append {K V : Type} [DecidableEq K] (m : List (K × V))
    (ps qs : List (K × V)) : foldPairs m (ps ++ qs) = foldPairs (foldPairs m ps) qs := by
  simp [foldPairs, List.foldl_append]

theorem foldPairs_keys {K V : Type} [DecidableEq K] (m : List (K × V)) (ps : List (K × V)) :
    (foldPairs m ps).map Prod.fst = keysAccum (m.map Prod.fst) (ps.map Prod.fst) := by
  induction ps generalizing m with
  | nil => rfl
  | cons p rest ih =>
      simp only [foldPairs_cons, List.map_cons, keysAccum, List.foldl_cons]
      rw [ih, tmapAdd_keys]
      by_cases hm : p.1 ∈ m.map Prod.fst
      · simp [keysAccum, hm]
      · simp [keysAccum, hm]

theorem foldPairs_find {K V : Type} [DecidableEq K] (m : List (K × V)) (ps : List (K × V))
    (k : K) :
    tmapFind? (foldPairs m ps) k =
      match (ps.filter fun p => decide (p.1 = k)).getLast? with
      | some p => some p.2
      | none => tmapFind? m k := by
  induction ps using List.reverseRecOn with
  | nil => rfl
  | append_singleton rest p ih =>
      rw [foldPairs_append]
      by_cases h : p.1 = k
      · have h1 : List.filter (fun q => decide (q.1 = k)) (rest ++ [p]) =
            List.filter (fun q => decide (q.1 = k)) rest ++ [p] := by
          simp [List.filter_append, h]
        rw [h1, List.getLast?_concat]
        have h2 : foldPairs (foldPairs m rest) [p] = tmapAdd (foldPairs m rest) p.1 p.2 := rfl
        rw [h2, h]
        exact tmapFind?_tmapAdd_self _ _ _
      · have h1 : List.filter (fun q => decide (q.1 = k)) (rest ++ [p]) =
            List.filter (fun q => decide (q.1 = k)) rest := by
          simp [List.filter_append, h]
        rw [h1, ← ih]
        have h2 : foldPairs (foldPairs m rest) [p] = tmapAdd (foldPairs m rest) p.1 p.2 := rfl
        rw [h2]
        exact tmapFind?_tmapAdd_ne _ _ _ _ h

theorem keysAccum_mem {K : Type} [DecidableEq K] (ks l : List K) (x : K)
    (hx : x ∈ keysAccum ks l) : x ∈ ks ∨ x ∈ l := by
  induction l generalizing ks with
  | nil => exact Or.inl hx
  | cons a rest ih =>
      simp only [keysAccum, List.foldl_cons] at hx
      by_cases ha : a ∈ ks
      · rcases ih _ (by simpa [keysAccum, ha] using hx) with h | h
        · exact Or.inl h
        · exact Or.inr (List.mem_cons_of_mem _ h)
      · rcases ih _ (by simpa [keysAccum, ha] using hx) with h | h
        · rcases List.mem_append.mp h with h1 | h2
          · exact Or.inl h1
          · exact Or.inr (by rw [List.mem_singleton.mp h2]; exact List.mem_cons_self a rest)
        · exact Or.inr (List.mem_cons_of_mem _ h)

theorem keysAccum_nodup {K : Type} [DecidableEq K] (ks l : List K) (h : ks.Nodup) :
    (keysAccum ks l).Nodup := by
  induction l generalizing ks with
  | nil => exact h
  | cons a rest ih =>
      simp only [keysAccum, List.foldl_cons]
      by_cases ha : a ∈ ks
      · rw [if_pos ha]
        exact ih _ h
      · rw [if_neg ha]
        refine ih _ ?_
        simp [List.nodup_append, h, ha]

/-! ## Helper lemmas: sound and image resolution -/

theorem soundScan_nil (n : String) (acc : List USoundBase) : soundScan [] n acc = acc := rfl

theorem soundScan_cons_none (rest : List (Option USoundBase)) (n : String)
    (acc : List USoundBase) : soundScan (none :: rest) n acc = soundScan rest n acc := rfl

theorem soundScan_cons_some (x : USoundBase) (rest : List (Option USoundBase)) (n : String)
    (acc : List USoundBase) :
    soundScan (some x :: rest) n acc =
      soundScan rest n (if x.name = n ∧ x ∉ acc then acc ++ [x] else acc) := rfl

theorem mem_soundScan_of_mem (pool : List (Option USoundBase)) (n : String)
    (acc : List USoundBase) (x : USoundBase) (hx : x ∈ acc) : x ∈ soundScan pool n acc := by
  induction pool generalizing acc with
  | nil => exact hx
  | cons s rest ih =>
      cases s with
      | none => rw [soundScan_cons_none]; exact ih _ hx
      | some y =>
          rw [soundScan_cons_some]
          by_cases hc : y.name = n ∧ y ∉ acc
          · rw [if_pos hc]; exact ih _ (List.mem_append_left _ hx)
          · rw [if_neg hc]; exact ih _ hx

theorem mem_soundScan_of_match (pool : List (Option USoundBase)) (n : String)
    (acc : List USoundBase) (x : USoundBase) (hx : some x ∈ pool) (hn : x.name = n) :
    x ∈ soundScan pool n acc := by
  induction pool generalizing acc with
  | nil => cases hx
  | cons s rest ih =>
      rcases List.mem_cons.mp hx with he | hm
      · rw [← he, soundScan_cons_some]
        by_cases hc : x.name = n ∧ x ∉ acc
        · rw [if_pos hc]
          exact mem_soundScan_of_mem _ _ _ _ (List.mem_append_right _ (List.mem_singleton_self x))
        · rw [if_neg hc]
          have hmem : x ∈ acc := by
            by_contra hcon
            exact hc ⟨hn, hcon⟩
          exact mem_soundScan_of_mem _ _ _ _ hmem
      · cases s with
        | none => rw [soundScan_cons_none]; exact ih _ hm
        | some y =>
            rw [soundScan_cons_some]
            exact ih _ hm

theorem soundScan_eq_of_matches (pool : List (Option USoundBase)) (n : String)
    (acc : List USoundBase) (h : ∀ x, some x ∈ pool → x.name = n → x ∈ acc) :
    soundScan pool n acc = acc := by
  induction pool with
  | nil => rfl
  | cons s rest ih =>
      cases s with
      | none =>
          rw [soundScan_cons_none]
          exact ih (fun x hx hn => h x (List.mem_cons_of_mem _ hx) hn)
      | some y =>
          rw [soundScan_cons_some]
          have hcond : ¬(y.name = n ∧ y ∉ acc) := by
            intro hc
            exact hc.2 (h y (List.mem_cons_self _ _) hc.1)
          rw [if_neg hcond]
          exact ih (fun x hx hn => h x (List.mem_cons_of_mem _ hx) hn)

theorem soundScan_idem (pool : List (Option USoundBase)) (n : String) (acc : List USoundBase) :
    soundScan pool n (soundScan pool n acc) = soundScan pool n acc :=
  soundScan_eq_of_matches _ _ _ (fun x hx hn => mem_soundScan_of_match _ _ _ _ hx hn)

theorem soundScan_no_match (pool : List (Option USoundBase)) (n : String)
    (acc : List USoundBase) (h : ∀ x, some x ∈ pool → x.name ≠ n) : soundScan pool n acc = acc :=
  soundScan_eq_of_matches _ _ _ (fun x hx hn => absurd hn (h x hx))

theorem soundScan_nodup (pool : List (Option USoundBase)) (n : String) (acc : List USoundBase)
    (h : acc.Nodup) : (soundScan pool n acc).Nodup := by
  induction pool generalizing acc with
  | nil => exact h
  | cons s rest ih =>
      cases s with
      | none => rw [soundScan_cons_none]; exact ih _ h
      | some y =>
          rw [soundScan_cons_some]
          by_cases hc : y.name = n ∧ y ∉ acc
          · rw [if_pos hc]
            exact ih _ (by simp [List.nodup_append, h, hc.2])
          · rw [if_neg hc]
            exact ih _ h

theorem soundFold_nodup (names : List String) (pool : List (Option USoundBase))
    (acc : List USoundBase) (h : acc.Nodup) :
    (names.foldl (fun sounds soundName => soundScan pool soundName sounds) acc).Nodup := by
  induction names generalizing acc with
  | nil => exact h
  | cons n rest ih =>
      rw [List.foldl_cons]
      exact ih _ (soundScan_nodup _ _ _ h)

theorem getSoundByName_nodup (names : List String) (pool : List (Option USoundBase)) :
    (getSoundByName names pool).Nodup :=
  soundFold_nodup names pool [] List.nodup_nil

theorem getSoundByName_dup (n : String) (names : List String)
    (pool : List (Option USoundBase)) :
    getSoundByName (n :: n :: names) pool = getSoundByName (n :: names) pool := by
  show names.foldl (fun sounds soundName => soundScan pool soundName sounds)
      (soundScan pool n (soundScan pool n [])) =
    names.foldl (fun sounds soundName => soundScan pool soundName sounds) (soundScan pool n [])
  rw [soundScan_idem]

theorem getSoundByName_skip (n : String) (names : List String)
    (pool : List (Option USoundBase)) (h : ∀ x, some x ∈ pool → x.name ≠ n) :
    getSoundByName (n :: names) pool = getSoundByName names pool := by
  show names.foldl (fun sounds soundName => soundScan pool soundName sounds)
      (soundScan pool n []) =
    names.foldl (fun sounds soundName => soundScan pool soundName sounds) []
  rw [soundScan_no_match _ _ _ h]

theorem soundScan_filter (pool : List (Option USoundBase)) (n : String) (acc : List USoundBase)
    (hp : (pool.filterMap id).Nodup) (hd : ∀ x, some x ∈ pool → x ∉ acc) :
    soundScan pool n acc = acc ++ (pool.filterMap id).filter (fun x => decide (x.name = n)) := by
  induction pool generalizing acc with
  | nil => simp [soundScan_nil]
  | cons s rest ih =>
      cases s with
      | none =>
          rw [soundScan_cons_none]
          have hfm : (none :: rest).filterMap id = rest.filterMap id := by simp
          rw [hfm]
          have hp' : (rest.filterMap id).Nodup := by simpa using hp
          exact ih _ hp' (fun x hx => hd x (List.mem_cons_of_mem _ hx))
      | some y =>
          have hfm : (some y :: rest).filterMap id = y :: rest.filterMap id := by simp
          have hy : y ∉ rest.filterMap id := by
            rw [hfm] at hp
            exact (List.nodup_cons.mp hp).1
          have hp' : (rest.filterMap id).Nodup := by
            rw [hfm] at hp
            exact (List.nodup_cons.mp hp).2
          have hyacc : y ∉ acc := hd y (List.mem_cons_self _ _)
          rw [soundScan_cons_some, hfm]
          by_cases hn : y.name = n
          · rw [if_pos ⟨hn, hyacc⟩]
            have hd' : ∀ x, some x ∈ rest → x ∉ acc ++ [y] := by
              intro x hx hmem
              rcases List.mem_append.mp hmem with h1 | h2
              · exact hd x (List.mem_cons_of_mem _ hx) h1
              · have hxy : x = y := List.mem_singleton.mp h2
                apply hy
                rw [← hxy]
                exact List.mem_filterMap.mpr ⟨some x, hx, rfl⟩
            rw [ih _ hp' hd']
            simp [hn, List.append_assoc]
          · rw [if_neg (by intro hc; exact hn hc.1)]
            rw [ih _ hp' (fun x hx => hd x (List.mem_cons_of_mem _ hx))]
            simp [hn]

theorem getSoundByName_single (n : String) (pool : List (Option USoundBase))
    (hp : (pool.filterMap id).Nodup) :
    getSoundByName [n] pool = (pool.filterMap id).filter (fun x => decide (x.name = n)) := by
  show soundScan pool n [] = _
  rw [soundScan_filter pool n [] hp (by simp)]
  simp

/-! ## Helper lemmas: image resolution (mirror of the sound lemmas) -/

theorem imageScan_nil (n : String) (acc : List UTexture2D) : imageScan [] n acc = acc := rfl

theorem imageScan_cons_none (rest : List (Option UTexture2D)) (n : String)
    (acc : List UTexture2D) : imageScan (none :: rest) n acc = imageScan rest n acc := rfl

theorem imageScan_cons_some (x : UTexture2D) (rest : List (Option UTexture2D)) (n : String)
    (acc : List UTexture2D) :
    imageScan (some x :: rest) n acc =
      imageScan rest n (if x.name = n ∧ x ∉ acc then acc ++ [x] else acc) := rfl

theorem mem_imageScan_of_mem (pool : List (Option UTexture2D)) (n : String)
    (acc : List UTexture2D) (x : UTexture2D) (hx : x ∈ acc) : x ∈ imageScan pool n acc := by
  induction pool generalizing acc with
  | nil => exact hx
  | cons s rest ih =>
      cases s with
      | none => rw [imageScan_cons_none]; exact ih _ hx
      | some y =>
          rw [imageScan_cons_some]
          by_cases hc : y.name = n ∧ y ∉ acc
          · rw [if_pos hc]; exact ih _ (List.mem_append_left _ hx)
          · rw [if_neg hc]; exact ih _ hx

theorem mem_imageScan_of_match (pool : List (Option UTexture2D)) (n : String)
    (acc : List UTexture2D) (x : UTexture2D) (hx : some x ∈ pool) (hn : x.name = n) :
    x ∈ imageScan pool n acc := by
  induction pool generalizing acc with
  | nil => cases hx
  | cons s rest ih =>
      rcases List.mem_cons.mp hx with he | hm
      · rw [← he, imageScan_cons_some]
        by_cases hc : x.name = n ∧ x ∉ acc
        · rw [if_pos hc]
          exact mem_imageScan_of_mem _ _ _ _ (List.mem_append_right _ (List.mem_singleton_self x))
        · rw [if_neg hc]
          have hmem : x ∈ acc := by
            by_contra hcon
            exact hc ⟨hn, hcon⟩
          exact mem_imageScan_of_mem _ _ _ _ hmem
      · cases s with
        | none => rw [imageScan_cons_none]; exact ih _ hm
        | some y =>
            rw [imageScan_cons_some]
            exact ih _ hm

theorem imageScan_eq_of_matches (pool : List (Option UTexture2D)) (n : String)
    (acc : List UTexture2D) (h : ∀ x, some x ∈ pool → x.name = n → x ∈ acc) :
    imageScan pool n acc = acc := by
  induction pool with
  | nil => rfl
  | cons s rest ih =>
      cases s with
      | none =>
          rw [imageScan_cons_none]
          exact ih (fun x hx hn => h x (List.mem_cons_of_mem _ hx) hn)
      | some y =>
          rw [imageScan_cons_some]
          have hcond : ¬(y.name = n ∧ y ∉ acc) := by
            intro hc
            exact hc.2 (h y (List.mem_cons_self _ _) hc.1)
          rw [if_neg hcond]
          exact ih (fun x hx hn => h x (List.mem_cons_of_mem _ hx) hn)

theorem imageScan_idem (pool : List (Option UTexture2D)) (n : String) (acc : List UTexture2D) :
    imageScan pool n (imageScan pool n acc) = imageScan pool n acc :=
  imageScan_eq_of_matches _ _ _ (fun x hx hn => mem_imageScan_of_match _ _ _ _ hx hn)

theorem imageScan_no_match (pool : List (Option UTexture2D)) (n : String)
    (acc : List UTexture2D) (h : ∀ x, some x ∈ pool → x.name ≠ n) : imageScan pool n acc = acc :=
  imageScan_eq_of_matches _ _ _ (fun x hx hn => absurd hn (h x hx))

theorem imageScan_nodup (pool : List (Option UTexture2D)) (n : String) (acc : List UTexture2D)
    (h : acc.Nodup) : (imageScan pool n acc).Nodup := by
  induction pool generalizing acc with
  | nil => exact h
  | cons s rest ih =>
      cases s with
      | none => rw [imageScan_cons_none]; exact ih _ h
      | some y =>
          rw [imageScan_cons_some]
          by_cases hc : y.name = n ∧ y ∉ acc
          · rw [if_pos hc]
            exact ih _ (by simp [List.nodup_append, h, hc.2])
          · rw [if_neg hc]
            exact ih _ h

theorem imageFold_nodup (names : List String) (pool : List (Option UTexture2D))
    (acc : List UTexture2D) (h : acc.Nodup) :
    (names.foldl (fun foundImages imageName => imageScan pool imageName foundImages) acc).Nodup := by
  induction names generalizing acc with
  | nil => exact h
  | cons n rest ih =>
      rw [List.foldl_cons]
      exact ih _ (imageScan_nodup _ _ _ h)

theorem getImageByName_nodup (names : List String) (pool : List (Option UTexture2D)) :
    (getImageByName names pool).Nodup :=
  imageFold_nodup names pool [] List.nodup_nil

theorem getImageByName_dup (n : String) (names : List String)
    (pool : List (Option UTexture2D)) :
    getImageByName (n :: n :: names) pool = getImageByName (n :: names) pool := by
  show names.foldl (fun foundImages imageName => imageScan pool imageName foundImages)
      (imageScan pool n (imageScan pool n [])) =
    names.foldl (fun foundImages imageName => imageScan pool imageName foundImages)
      (imageScan pool n [])
  rw [imageScan_idem]

theorem getImageByName_skip (n : String) (names : List String)
    (pool : List (Option UTexture2D)) (h : ∀ x, some x ∈ pool → x.name ≠ n) :
    getImageByName (n :: names) pool = getImageByName names pool := by
  show names.foldl (fun foundImages imageName => imageScan pool imageName foundImages)
      (imageScan pool n []) =
    names.foldl (fun foundImages imageName => imageScan pool imageName foundImages) []
  rw [imageScan_no_match _ _ _ h]

theorem imageScan_filter (pool : List (Option UTexture2D)) (n : String) (acc : List UTexture2D)
    (hp : (pool.filterMap id).Nodup) (hd : ∀ x, some x ∈ pool → x ∉ acc) :
    imageScan pool n acc = acc ++ (pool.filterMap id).filter (fun x => decide (x.name = n)) := by
  induction pool generalizing acc with
  | nil => simp [imageScan_nil]
  | cons s rest ih =>
      cases s with
      | none =>
          rw [imageScan_cons_none]
          have hfm : (none :: rest).filterMap id = rest.filterMap id := by simp
          rw [hfm]
          have hp' : (rest.filterMap id).Nodup := by simpa using hp
          exact ih _ hp' (fun x hx => hd x (List.mem_cons_of_mem _ hx))
      | some y =>
          have hfm : (some y :: rest).filterMap id = y :: rest.filterMap id := by simp
          have hy : y ∉ rest.filterMap id := by
            rw [hfm] at hp
            exact (List.nodup_cons.mp hp).1
          have hp' : (rest.filterMap id).Nodup := by
            rw [hfm] at hp
            exact (List.nodup_cons.mp hp).2
          have hyacc : y ∉ acc := hd y (List.mem_cons_self _ _)
          rw [imageScan_cons_some, hfm]
          by_cases hn : y.name = n
          · rw [if_pos ⟨hn, hyacc⟩]
            have hd' : ∀ x, some x ∈ rest → x ∉ acc ++ [y] := by
              intro x hx hmem
              rcases List.mem_append.mp hmem with h1 | h2
              · exact hd x (List.mem_cons_of_mem _ hx) h1
              · have hxy : x = y := List.mem_singleton.mp h2
                apply hy
                rw [← hxy]
                exact List.mem_filterMap.mpr ⟨some x, hx, rfl⟩
            rw [ih _ hp' hd']
            simp [hn, List.append_assoc]
          · rw [if_neg (by intro hc; exact hn hc.1)]
            rw [ih _ hp' (fun x hx => hd x (List.mem_cons_of_mem _ hx))]
            simp [hn]

theorem getImageByName_single (n : String) (pool : List (Option UTexture2D))
    (hp : (pool.filterMap id).Nodup) :
    getImageByName [n] pool = (pool.filterMap id).filter (fun x => decide (x.name = n)) := by
  show imageScan pool n [] = _
  rw [imageScan_filter pool n [] hp (by simp)]
  simp

/-! ## Helper lemmas: actor resolution -/

theorem getActorByName_find? (name : String) (pool : List (Option AActor)) :
    getActorByName name pool =
      match pool.find? (actorMatches name) with
      | some (some a) => (some a, true, "Actor Found")
      | _ => (none, false, "Actor Not Found") := by
  induction pool with
  | nil => rfl
  | cons cp rest ih =>
      cases cp with
      | none =>
          rw [List.find?_cons_of_neg _ (by simp [actorMatches])]
          simpa [getActorByName] using ih
      | some a =>
          by_cases h : fnameEq a.firstTag name
          · rw [List.find?_cons_of_pos _ (by simpa [actorMatches] using h)]
            simp [getActorByName, h]
          · rw [List.find?_cons_of_neg _ (by simpa [actorMatches] using h)]
            simp only [getActorByName, h, if_false]
            exact ih

theorem getActorByName_cases (name : String) (pool : List (Option AActor)) :
    (∃ a, getActorByName name pool = (some a, true, "Actor Found")) ∨
      getActorByName name pool = (none, false, "Actor Not Found") := by
  rw [getActorByName_find?]
  rcases hf : pool.find? (actorMatches name) with _ | cp
  · exact Or.inr rfl
  · cases cp with
    | none => exact Or.inr rfl
    | some a => exact Or.inl ⟨a, rfl⟩

theorem getActorByName_none_of_fail (name : String) (pool : List (Option AActor))
    (h : (getActorByName name pool).1 = none) :
    getActorByName name pool = (none, false, "Actor Not Found") := by
  rcases getActorByName_cases name pool with ⟨a, ha⟩ | hn
  · rw [ha] at h
    cases h
  · exact hn

/-! ## Helper lemmas: distinct-key counting for the checkpoint maps -/

theorem keysAccum_length_lt {K : Type} [DecidableEq K] (l : List K) (h : ¬l.Nodup) :
    (keysAccum [] l).length < l.length := by
  have hnd : (keysAccum ([] : List K) l).Nodup := keysAccum_nodup [] l List.nodup_nil
  have hsub : (keysAccum ([] : List K) l).toFinset ⊆ l.toFinset := by
    intro x hx
    rw [List.mem_toFinset] at hx ⊢
    rcases keysAccum_mem [] l x hx with h0 | h0
    · cases h0
    · exact h0
  have hdl : l.dedup.length < l.length := by
    refine lt_of_le_of_ne (List.Sublist.length_le (List.dedup_sublist l)) ?_
    intro he
    exact h (by
      rw [← List.dedup_eq_self]
      exact List.Sublist.eq_of_length (List.dedup_sublist l) he)
  calc (keysAccum ([] : List K) l).length
      = (keysAccum ([] : List K) l).toFinset.card := (List.toFinset_card_of_nodup hnd).symm
    _ ≤ l.toFinset.card := Finset.card_le_card hsub
    _ = l.dedup.length := List.card_toFinset _
    _ < l.length := hdl

theorem not_nodup_of_two_le_filter {K : Type} [DecidableEq K] (l : List K) (a : K)
    (h : 2 ≤ (l.filter (fun x => decide (x = a))).length) : ¬l.Nodup := by
  intro hnd
  have hf : (l.filter (fun x => decide (x = a))).Nodup := hnd.filter _
  rcases hfe : l.filter (fun x => decide (x = a)) with _ | ⟨x, _ | ⟨y, t⟩⟩
  · rw [hfe] at h
    simp at h
  · rw [hfe] at h
    simp at h
  · rw [hfe] at hf
    have hx : x = a := by
      have := List.of_mem_filter (l := l) (by rw [hfe]; exact List.mem_cons_self _ _)
      simpa using this
    have hy : y = a := by
      have := List.of_mem_filter (l := l) (p := fun x => decide (x = a))
        (by rw [hfe]; exact List.mem_cons_of_mem _ (List.mem_cons_self _ _))
      simpa using this
    have hxny : x ∉ y :: t := (List.nodup_cons.mp hf).1
    exact hxny (by rw [hx, hy]; exact List.mem_cons_self _ _)

/-! ## Helper lemmas: loader loop closed forms -/

theorem checkpoints_fold (s : List (Option USoundBase)) (a : List (Option AActor))
    (rs : List FCheckpointRecord) (acc : FCheckpointsGameData × List String) :
    rs.foldl (checkpointsStep s a) acc =
      (⟨acc.1.ActorsToFollow ++ rs.map (fun r => (getActorByName r.CheckpointName a).1),
        foldPairs acc.1.ActorFrameMap
          (rs.map (fun r => ((getActorByName r.CheckpointName a).1, r.CheckpointFrameNumber))),
        foldPairs acc.1.ActorKeyMap
          (rs.map (fun r => ((getActorByName r.CheckpointName a).1,
            checkpointNarration s r)))⟩,
        acc.2 ++ (rs.filter (fun r => !(getActorByName r.CheckpointName a).2.1)).map
          (fun r => (getActorByName r.CheckpointName a).2.2)) := by
  induction rs generalizing acc with
  | nil => simp [foldPairs_nil]
  | cons r rest ih =>
      rw [List.foldl_cons, ih]
      cases hs : (getActorByName r.CheckpointName a).2.1 with
      | true =>
          simp [checkpointsStep, hs, foldPairs_cons, List.filter_cons, List.append_assoc]
      | false =>
          simp [checkpointsStep, hs, foldPairs_cons, List.filter_cons, List.append_assoc]

theorem learnmore_fold (s : List (Option USoundBase)) (imgs : List (Option UTexture2D))
    (idx : Int) (rs : List FLearnMoreRecord) (acc : List FLearnMoreNarration) :
    rs.foldl
        (fun acc d =>
          if d.CorrespondingCPIndex = idx then acc ++ [learnMoreNarration s imgs d] else acc)
        acc =
      acc ++ (rs.filter (fun d => decide (d.CorrespondingCPIndex = idx))).map
        (learnMoreNarration s imgs) := by
  induction rs generalizing acc with
  | nil => simp
  | cons r rest ih =>
      rw [List.foldl_cons]
      by_cases h : r.CorrespondingCPIndex = idx
      · rw [if_pos h, ih]
        simp [List.filter_cons, h, List.append_assoc]
      · rw [if_neg h, ih]
        simp [List.filter_cons, h]

theorem quizNarrAux_keys (s : List (Option USoundBase)) (options : FQuizOptionsArray)
    (m : Nat) :
    (quizNarrAux s options m).m_Keys =
      (options.store.take m).map FQuizQuestionOption.OptionDescription := by
  cases m with
  | zero => rfl
  | succ k => rfl

theorem quizNarrAux_rest (s : List (Option USoundBase)) (options : FQuizOptionsArray)
    (m : Nat) :
    (quizNarrAux s options m).m_Images = [] ∧
      (quizNarrAux s options m).CorrespondingCPIndex = 0 ∧
      (quizNarrAux s options m).m_SourceName = "" := by
  cases m with
  | zero => exact ⟨rfl, rfl, rfl⟩
  | succ k => exact ⟨rfl, rfl, rfl⟩

theorem take_succ_desc (options : FQuizOptionsArray) (m : Nat) (hm : m < options.store.length) :
    (options.store.take m).map FQuizQuestionOption.OptionDescription ++
        [(options.store.getD m default).OptionDescription] =
      (options.store.take (m + 1)).map FQuizQuestionOption.OptionDescription := by
  rw [List.take_succ]
  have hget : options.store[m]? = some (options.store.getD m default) := by
    rw [List.getElem?_eq_getElem hm]
    rw [List.getD_eq_getElem?_getD, List.getElem?_eq_getElem hm]
    rfl
  rw [hget]
  simp

theorem quizStepNarr_aux (s : List (Option USoundBase)) (options : FQuizOptionsArray)
    (m : Nat) (hmlt : m < options.store.length) :
    quizStepNarr s options m (quizNarrAux s options m) = quizNarr s options m := by
  obtain ⟨h1, h2, h3⟩ := quizNarrAux_rest s options m
  show ({ quizNarrAux s options m with
      m_TitleKey := (options.store.getD m default).OptionName
      m_Keys := (quizNarrAux s options m).m_Keys ++
        [(options.store.getD m default).OptionDescription]
      m_EnglishNarrationSounds :=
        getSoundByName [(options.store.getD m default).EnglishNarrationSound] s
      m_FrenchNarrationSounds :=
        getSoundByName [(options.store.getD m default).FrenchNarrationSound] s } :
    FLearnMoreNarration) = quizNarr s options m
  rw [quizNarrAux_keys, take_succ_desc options m hmlt]
  rw [quizNarr]
  simp [h1, h2, h3]

theorem quiz_fold (s : List (Option USoundBase)) (options : FQuizOptionsArray) (n : Nat)
    (hn : n ≤ options.store.length) :
    (List.range n).foldl (quizStep s options) ([], default) =
      ((List.range n).map (fun i => (i, quizNarr s options i)), quizNarrAux s options n) := by
  induction n with
  | zero => rfl
  | succ m ih =>
      have hm : m ≤ options.store.length := Nat.le_of_succ_le hn
      have hmlt : m < options.store.length := Nat.lt_of_succ_le hn
      rw [List.range_succ, List.foldl_append, ih hm, List.foldl_cons, List.foldl_nil]
      have hnotmem : m ∉ List.map Prod.fst
          ((List.range m).map (fun i => (i, quizNarr s options i))) := by
        rw [List.map_map]
        simp
      show (tmapAdd ((List.range m).map (fun i => (i, quizNarr s options i))) m
            (quizStepNarr s options m (quizNarrAux s options m)),
          quizStepNarr s options m (quizNarrAux s options m)) =
        ((List.range m ++ [m]).map (fun i => (i, quizNarr s options i)),
          quizNarrAux s options (m + 1))
      rw [quizStepNarr_aux s options m hmlt, tmapAdd_of_not_mem _ _ _ hnotmem,
        List.map_append]
      rfl

theorem loadCheckpointsDataCore_eq (d : FCheckpointsData) (s : List (Option USoundBase))
    (a : List (Option AActor)) :
    loadCheckpointsDataCore d s a =
      (⟨d.Data.map (fun r => (getActorByName r.CheckpointName a).1),
        foldPairs []
          (d.Data.map (fun r => ((getActorByName r.CheckpointName a).1,
            r.CheckpointFrameNumber))),
        foldPairs []
          (d.Data.map (fun r => ((getActorByName r.CheckpointName a).1,
            checkpointNarration s r)))⟩,
        (d.Data.filter (fun r => !(getActorByName r.CheckpointName a).2.1)).map
          (fun r => (getActorByName r.CheckpointName a).2.2)) := by
  rw [loadCheckpointsDataCore, checkpoints_fold]
  simp

theorem populateLearnMoreUI_eq (d : FLearnMoreData) (success : Bool) (message : String)
    (idx : Int) (s : List (Option USoundBase)) (imgs : List (Option UTexture2D)) :
    populateLearnMoreUI d success message idx s imgs =
      (⟨(d.Data.filter (fun r => decide (r.CorrespondingCPIndex = idx))).map
        (learnMoreNarration s imgs)⟩, []) := by
  rw [populateLearnMoreUI, learnmore_fold]
  simp

theorem populateQuizUI_eq (s : List (Option USoundBase)) (q : FQuizQuestions) (idx : Nat) :
    populateQuizUI s q idx =
      ⟨(List.range ((q.m_Questions.getD idx default).QuestionOptions.Options).Max).map
        (fun i => (i, quizNarr s ((q.m_Questions.getD idx default).QuestionOptions.Options) i))⟩ := by
  have h := quiz_fold s ((q.m_Questions.getD idx default).QuestionOptions.Options)
    ((q.m_Questions.getD idx default).QuestionOptions.Options).Max (Nat.le_refl _)
  rw [populateQuizUI, h]

/-! ## Claims -/

/-- C1, counterexample: with a failed decode (default-valued structure,
`success = false`), `PopulateLearnMoreUI` returns zero records but emits NO
diagnostic at all, contradicting the claim that every loader emits an
observable diagnostic distinct from the success path. -/
theorem C1_counterexample :
    (populateLearnMoreUI ⟨[]⟩ false "JSON decode failed" 0 [] []).1.LearnMoreData = [] ∧
      (populateLearnMoreUI ⟨[]⟩ false "JSON decode failed" 0 [] []).2 = [] :=
  ⟨rfl, rfl⟩

/-- C1, amended: on a failed decode (default-valued structure, zero records,
`success = false`) every loader still returns a result with zero records, but
only the quiz loader emits the diagnostic message; the instruction and
checkpoint loaders emit diagnostics only inside their per-record loops (which
run zero times) and the learn-more loader never emits one. -/
theorem C1_ok (message : String) (s : List (Option USoundBase))
    (imgs : List (Option UTexture2D)) (a : List (Option AActor)) (idx : Int) :
    (loadInstructionsData ⟨[]⟩ false message s).1.InstructionKeyMap = [] ∧
      (loadInstructionsData ⟨[]⟩ false message s).2 = [] ∧
      (loadCheckpointsDataCore ⟨[]⟩ s a).1.ActorsToFollow = [] ∧
      (loadCheckpointsDataCore ⟨[]⟩ s a).1.ActorFrameMap = [] ∧
      (loadCheckpointsDataCore ⟨[]⟩ s a).1.ActorKeyMap = [] ∧
      (loadCheckpointsDataCore ⟨[]⟩ s a).2 = [] ∧
      (populateLearnMoreUI ⟨[]⟩ false message idx s imgs).1.LearnMoreData = [] ∧
      (populateLearnMoreUI ⟨[]⟩ false message idx s imgs).2 = [] ∧
      (loadQuizQuestions ⟨[]⟩ false message).1.m_Questions = [] ∧
      (loadQuizQuestions ⟨[]⟩ false message).2 = [message] :=
  ⟨rfl, rfl, rfl, rfl, rfl, rfl, rfl, rfl, rfl, rfl⟩

/-- C2, counterexample: because `LoadCheckpointsData` keeps its decoded
structure in a function-local static, a second call with a different path
returns the first call's records: calling it for `tour_b.json` after a call
for `tour_a.json` yields a different result than calling it for
`tour_b.json` first. -/
theorem C2_counterexample :
    (loadCheckpointsData decodeEx
        (loadCheckpointsData decodeEx none "tour_a.json" [] []).2 "tour_b.json" [] []).1 ≠
      (loadCheckpointsData decodeEx none "tour_b.json" [] []).1 := by
  decide

/-- C2, amended: the other loaders are pure functions of their explicit
inputs, but `LoadCheckpointsData` retains the first decode in function-local
static state: once the static is initialized with `d`, the result is
determined by `d`, the sound pool and the actor list alone — the decoder and
the path argument are ignored — while only the first call (empty static)
decodes its path. -/
theorem C2_ok (decode decode2 : String → FCheckpointsData × Bool × String)
    (d : FCheckpointsData) (path path2 : String) (s : List (Option USoundBase))
    (a : List (Option AActor)) :
    loadCheckpointsData decode (some d) path s a = (loadCheckpointsDataCore d s a, some d) ∧
      loadCheckpointsData decode (some d) path s a =
        loadCheckpointsData decode2 (some d) path2 s a ∧
      loadCheckpointsData decode none path s a =
        (loadCheckpointsDataCore (decode path).1 s a, some (decode path).1) :=
  ⟨rfl, rfl, rfl⟩

/-- C5: `StringToInstructions` maps each of the eight recognized strings by
exact match to its enumeration value, and every string outside the recognized
set maps to the default `LearnMoreProposed`, the first enumeration value. -/
theorem C5_ok (s : String) :
    stringToInstructions "LearnMoreProposed" = Instructions.LearnMoreProposed ∧
      stringToInstructions "LearnMoreCompleted" = Instructions.LearnMoreCompleted ∧
      stringToInstructions "HowToSelection" = Instructions.HowToSelection ∧
      stringToInstructions "QuizProposed" = Instructions.QuizProposed ∧
      stringToInstructions "LearnMoreNavigation" = Instructions.LearnMoreNavigation ∧
      stringToInstructions "MiniGameQuiz_Context" = Instructions.MiniGameQuiz_Context ∧
      stringToInstructions "MiniGameQuiz_QuestionInstruction" =
        Instructions.MiniGameQuiz_QuestionInstruction ∧
      stringToInstructions "Inactivity_Instruction" = Instructions.Inactivty_Instruction ∧
      (s ∉ (["LearnMoreProposed", "LearnMoreCompleted", "HowToSelection", "QuizProposed",
          "LearnMoreNavigation", "MiniGameQuiz_Context", "MiniGameQuiz_QuestionInstruction",
          "Inactivity_Instruction"] : List String) →
        stringToInstructions s = Instructions.LearnMoreProposed) := by
  refine ⟨by decide, by decide, by decide, by decide, by decide, by decide, by decide,
    by decide, ?_⟩
  intro h
  have h1 : s ≠ "LearnMoreProposed" := fun e => h (by rw [e]; simp)
  have h2 : s ≠ "LearnMoreCompleted" := fun e => h (by rw [e]; simp)
  have h3 : s ≠ "HowToSelection" := fun e => h (by rw [e]; simp)
  have h4 : s ≠ "QuizProposed" := fun e => h (by rw [e]; simp)
  have h5 : s ≠ "LearnMoreNavigation" := fun e => h (by rw [e]; simp)
  have h6 : s ≠ "MiniGameQuiz_Context" := fun e => h (by rw [e]; simp)
  have h7 : s ≠ "MiniGameQuiz_QuestionInstruction" := fun e => h (by rw [e]; simp)
  have h8 : s ≠ "Inactivity_Instruction" := fun e => h (by rw [e]; simp)
  simp [stringToInstructions, h1, h2, h3, h4, h5, h6, h7, h8]

/-- C5, witness: an unrecognized string maps to the default value. -/
theorem C5_witness :
    ("Bogus" ∉ (["LearnMoreProposed", "LearnMoreCompleted", "HowToSelection", "QuizProposed",
        "LearnMoreNavigation", "MiniGameQuiz_Context", "MiniGameQuiz_QuestionInstruction",
        "Inactivity_Instruction"] : List String)) ∧
      stringToInstructions "Bogus" = Instructions.LearnMoreProposed :=
  ⟨by decide,
    (C5_ok "Bogus").2.2.2.2.2.2.2.2 (by decide)⟩

/-- C7, counterexample: actor tags are `FName`s and `FName` comparison is
case-insensitive, so an actor tagged `CP_1` DOES match a lookup for `cp_1`,
contradicting the claim that it must not. -/
theorem C7_counterexample :
    (getActorByName "cp_1" [some ⟨1, "CP_1"⟩]).1 = some ⟨1, "CP_1"⟩ ∧
      (getActorByName "cp_1" [some ⟨1, "CP_1"⟩]).2.1 = true ∧
      (getActorByName "cp_1" [some ⟨1, "CP_1"⟩]).2.2 = "Actor Found" := by
  decide

/-- C7, amended: `GetActorByName` returns the first non-null actor whose
first tag equals the target name under case-INSENSITIVE `FName` comparison,
with `success = true` and an "Actor Found" message; when no candidate
matches it returns null, `success = false` and "Actor Not Found". -/
theorem C7_ok (name : String) (pool : List (Option AActor)) :
    (getActorByName name pool =
        match pool.find? (actorMatches name) with
        | some (some a) => (some a, true, "Actor Found")
        | _ => (none, false, "Actor Not Found")) ∧
      (∀ a : AActor, actorMatches name (some a) =
        (a.firstTag.data.map Char.toLower == name.data.map Char.toLower)) :=
  ⟨getActorByName_find? name pool, fun _ => rfl⟩

/-- C8: the actors-to-visit sequence has one entry per input record, in input
order; a record whose actor does not resolve contributes a null handle at its
position. -/
theorem C8_ok (d : FCheckpointsData) (s : List (Option USoundBase))
    (a : List (Option AActor)) :
    (loadCheckpointsDataCore d s a).1.ActorsToFollow =
        d.Data.map (fun r => (getActorByName r.CheckpointName a).1) ∧
      (loadCheckpointsDataCore d s a).1.ActorsToFollow.length = d.Data.length := by
  rw [loadCheckpointsDataCore_eq]
  exact ⟨rfl, by simp⟩

/-- C9: `PopulateLearnMoreUI` returns, in input order, exactly the records
whose owning-checkpoint index equals the given index under exact integer
equality; in particular for indices `[0,1,1,2]` and current index 1 it
returns the 2nd and 3rd records, in that order. -/
theorem C9_ok (d : FLearnMoreData) (success : Bool) (message : String) (idx : Int)
    (s : List (Option USoundBase)) (imgs : List (Option UTexture2D)) :
    (populateLearnMoreUI d success message idx s imgs).1.LearnMoreData =
        (d.Data.filter (fun r => decide (r.CorrespondingCPIndex = idx))).map
          (learnMoreNarration s imgs) ∧
      (populateLearnMoreUI ⟨[lmRec 0 "r0", lmRec 1 "r1", lmRec 1 "r2", lmRec 2 "r3"]⟩
          success message 1 s imgs).1.LearnMoreData =
        [learnMoreNarration s imgs (lmRec 1 "r1"), learnMoreNarration s imgs (lmRec 1 "r2")] := by
  constructor
  · rw [populateLearnMoreUI_eq]
  · rw [populateLearnMoreUI_eq]
    rfl

/-- C3, counterexample: in `PopulateQuizUI` the narration local is declared
outside the loop, so option position 1's caption list holds the accumulated
descriptions of options 0 and 1 rather than the single description of
option 1 the claim requires. -/
theorem C3_counterexample :
    tmapFind? (populateQuizUI [] quizEx 0).LearnMoreKeyMap 1 =
        some ⟨"N1", ["D0", "D1"], [], [], [], 0, ""⟩ ∧
      ¬ tmapFind? (populateQuizUI [] quizEx 0).LearnMoreKeyMap 1 =
        some ⟨"N1", ["D1"], [], [], [], 0, ""⟩ := by
  decide

/-- C3, amended: for every quiz structure and in-range question index,
`PopulateQuizUI` maps each visited option position `i` to a bundle whose
title key is option `i`'s name and whose English and French sound lists are
resolved from option `i`'s single per-language sound-name, but whose caption
list holds the accumulated descriptions of options 0 through `i` (a single
element only at position 0), because the narration local is reused across
iterations. -/
theorem C3_ok (s : List (Option USoundBase)) (q : FQuizQuestions) (idx : Nat)
    (h : idx < q.m_Questions.length) :
    (populateQuizUI s q idx).LearnMoreKeyMap =
      (List.range ((q.m_Questions.getD idx default).QuestionOptions.Options).Max).map
        (fun i => (i, quizNarr s ((q.m_Questions.getD idx default).QuestionOptions.Options) i)) := by
  rw [populateQuizUI_eq]

/-- C3, witness: the amended statement at the concrete two-option quiz. -/
theorem C3_witness :
    0 < quizEx.m_Questions.length ∧
      (populateQuizUI [] quizEx 0).LearnMoreKeyMap =
        (List.range ((quizEx.m_Questions.getD 0 default).QuestionOptions.Options).Max).map
          (fun i => (i, quizNarr [] ((quizEx.m_Questions.getD 0 default).QuestionOptions.Options) i)) :=
  ⟨by decide, C3_ok [] quizEx 0 (by decide)⟩

/-- C4: the option positions visited by `PopulateQuizUI` (the keys of the
returned map) are exactly `0 ..< Max()`, the capacity of the current
question's options container, whatever its logical element count `Num()`. -/
theorem C4_ok (s : List (Option USoundBase)) (q : FQuizQuestions) (idx : Nat)
    (h : idx < q.m_Questions.length) :
    (populateQuizUI s q idx).LearnMoreKeyMap.map Prod.fst =
        List.range ((q.m_Questions.getD idx default).QuestionOptions.Options).Max ∧
      (populateQuizUI s q idx).LearnMoreKeyMap.length =
        ((q.m_Questions.getD idx default).QuestionOptions.Options).Max := by
  rw [populateQuizUI_eq]
  constructor
  · have hfs : (Prod.fst ∘ fun i : Nat =>
        (i, quizNarr s ((q.m_Questions.getD idx default).QuestionOptions.Options) i)) =
        (fun i : Nat => i) := by
      funext i
      rfl
    rw [List.map_map, hfs]
    simp
  · simp

/-- C4, witness: at the concrete quiz whose options container has capacity 3
but logical count 2, all 3 slots are visited. -/
theorem C4_witness :
    0 < quizEx.m_Questions.length ∧
      ((quizEx.m_Questions.getD 0 default).QuestionOptions.Options).Num = 2 ∧
      ((quizEx.m_Questions.getD 0 default).QuestionOptions.Options).Max = 3 ∧
      ((populateQuizUI [] quizEx 0).LearnMoreKeyMap.map Prod.fst =
          List.range ((quizEx.m_Questions.getD 0 default).QuestionOptions.Options).Max ∧
        (populateQuizUI [] quizEx 0).LearnMoreKeyMap.length =
          ((quizEx.m_Questions.getD 0 default).QuestionOptions.Options).Max) :=
  ⟨by decide, by decide, by decide, C4_ok [] quizEx 0 (by decide)⟩

/-- C6, counterexample: a requested name matched by two DISTINCT pool assets
of the same display name contributes both of them (the inner scan has no
break), not only the first encountered as the claim states. -/
theorem C6_counterexample :
    getSoundByName ["A"] [some ⟨1, "A"⟩, some ⟨2, "A"⟩] = [⟨1, "A"⟩, ⟨2, "A"⟩] ∧
      getSoundByName ["A"] [some ⟨1, "A"⟩, some ⟨2, "A"⟩] ≠ [⟨1, "A"⟩] := by
  decide

/-- C6, amended: sound and image resolution are idempotent under duplicate
requested names (`[A,A,B]` resolves as `[A,B]`) and never produce duplicate
entries; a name with zero pool matches contributes nothing; and a name's
matches are appended in pool-encounter order — but a name matching several
distinct same-named assets contributes each of them (de-duplication is by
identity), not only the first encountered. -/
theorem C6_ok (a b : String) (names inames : List String)
    (pool : List (Option USoundBase)) (ipool : List (Option UTexture2D))
    (hp : (pool.filterMap id).Nodup) (hb : ∀ x ∈ pool.filterMap id, x.name ≠ b)
    (hip : (ipool.filterMap id).Nodup) (hib : ∀ x ∈ ipool.filterMap id, x.name ≠ b) :
    getSoundByName (a :: a :: names) pool = getSoundByName (a :: names) pool ∧
      (getSoundByName names pool).Nodup ∧
      getSoundByName (b :: names) pool = getSoundByName names pool ∧
      getSoundByName [a] pool = (pool.filterMap id).filter (fun x => decide (x.name = a)) ∧
      getImageByName (a :: a :: inames) ipool = getImageByName (a :: inames) ipool ∧
      (getImageByName inames ipool).Nodup ∧
      getImageByName (b :: inames) ipool = getImageByName inames ipool ∧
      getImageByName [a] ipool = (ipool.filterMap id).filter (fun x => decide (x.name = a)) :=
  ⟨getSoundByName_dup a names pool,
    getSoundByName_nodup names pool,
    getSoundByName_skip b names pool
      (fun x hx => hb x (List.mem_filterMap.mpr ⟨some x, hx, rfl⟩)),
    getSoundByName_single a pool hp,
    getImageByName_dup a inames ipool,
    getImageByName_nodup inames ipool,
    getImageByName_skip b inames ipool
      (fun x hx => hib x (List.mem_filterMap.mpr ⟨some x, hx, rfl⟩)),
    getImageByName_single a ipool hip⟩

/-- C6, witness: the amended statement at a concrete pool holding two
distinct assets named A and one named B, with requested names A, Z
(unmatched) and B. -/
theorem C6_witness :
    (([some ⟨1, "A"⟩, some ⟨2, "A"⟩, none, some ⟨3, "B"⟩] :
        List (Option USoundBase)).filterMap id).Nodup ∧
      (∀ x ∈ ([some ⟨1, "A"⟩, some ⟨2, "A"⟩, none, some ⟨3, "B"⟩] :
        List (Option USoundBase)).filterMap id, x.name ≠ "Z") ∧
      (([some ⟨4, "A"⟩, none] : List (Option UTexture2D)).filterMap id).Nodup ∧
      (∀ x ∈ ([some ⟨4, "A"⟩, none] : List (Option UTexture2D)).filterMap id, x.name ≠ "Z") ∧
      (getSoundByName ["A", "A", "B"] [some ⟨1, "A"⟩, some ⟨2, "A"⟩, none, some ⟨3, "B"⟩] =
          getSoundByName ["A", "B"] [some ⟨1, "A"⟩, some ⟨2, "A"⟩, none, some ⟨3, "B"⟩] ∧
        (getSoundByName ["B"] [some ⟨1, "A"⟩, some ⟨2, "A"⟩, none, some ⟨3, "B"⟩]).Nodup ∧
        getSoundByName ["Z", "B"] [some ⟨1, "A"⟩, some ⟨2, "A"⟩, none, some ⟨3, "B"⟩] =
          getSoundByName ["B"] [some ⟨1, "A"⟩, some ⟨2, "A"⟩, none, some ⟨3, "B"⟩] ∧
        getSoundByName ["A"] [some ⟨1, "A"⟩, some ⟨2, "A"⟩, none, some ⟨3, "B"⟩] =
          (([some ⟨1, "A"⟩, some ⟨2, "A"⟩, none, some ⟨3, "B"⟩] :
            List (Option USoundBase)).filterMap id).filter (fun x => decide (x.name = "A")) ∧
        getImageByName ["A", "A"] [some ⟨4, "A"⟩, none] =
          getImageByName ["A"] [some ⟨4, "A"⟩, none] ∧
        (getImageByName [] [some ⟨4, "A"⟩, none]).Nodup ∧
        getImageByName ["Z"] [some ⟨4, "A"⟩, none] = getImageByName [] [some ⟨4, "A"⟩, none] ∧
        getImageByName ["A"] [some ⟨4, "A"⟩, none] =
          (([some ⟨4, "A"⟩, none] : List (Option UTexture2D)).filterMap id).filter
            (fun x => decide (x.name = "A"))) :=
  ⟨by decide, by decide, by decide, by decide,
    C6_ok "A" "Z" ["B"] [] [some ⟨1, "A"⟩, some ⟨2, "A"⟩, none, some ⟨3, "B"⟩]
      [some ⟨4, "A"⟩, none] (by decide) (by decide) (by decide) (by decide)⟩

/-- C10: when at least two records of one `LoadCheckpointsData` call fail
actor resolution, all failing records share the single null key of
`ActorFrameMap` and `ActorKeyMap`, the stored frame number and narration
bundle being those of the LAST failing record (later ones overwrite earlier
ones); both maps then hold strictly fewer entries than there are records,
while `ActorsToFollow` still holds one entry per record. -/
theorem C10_ok (d : FCheckpointsData) (s : List (Option USoundBase))
    (a : List (Option AActor))
    (h2 : 2 ≤ (d.Data.filter
        (fun r => decide ((getActorByName r.CheckpointName a).1 = none))).length) :
    (loadCheckpointsDataCore d s a).1.ActorsToFollow.length = d.Data.length ∧
      tmapFind? (loadCheckpointsDataCore d s a).1.ActorFrameMap none =
        ((d.Data.filter
            (fun r => decide ((getActorByName r.CheckpointName a).1 = none))).getLast?).map
          (fun r => r.CheckpointFrameNumber) ∧
      tmapFind? (loadCheckpointsDataCore d s a).1.ActorKeyMap none =
        ((d.Data.filter
            (fun r => decide ((getActorByName r.CheckpointName a).1 = none))).getLast?).map
          (fun r => checkpointNarration s r) ∧
      (loadCheckpointsDataCore d s a).1.ActorFrameMap.length < d.Data.length ∧
      (loadCheckpointsDataCore d s a).1.ActorKeyMap.length < d.Data.length := by
  rw [loadCheckpointsDataCore_eq]
  have hfilter : ∀ (V : Type) (val : FCheckpointRecord → V),
      (d.Data.map (fun r => ((getActorByName r.CheckpointName a).1, val r))).filter
          (fun p => decide (p.1 = none)) =
        (d.Data.filter
          (fun r => decide ((getActorByName r.CheckpointName a).1 = none))).map
          (fun r => ((getActorByName r.CheckpointName a).1, val r)) := by
    intro V val
    have hpred : ((fun p : Option AActor × V => decide (p.1 = none)) ∘
        (fun r => ((getActorByName r.CheckpointName a).1, val r))) =
        (fun r => decide ((getActorByName r.CheckpointName a).1 = none)) := by
      funext r
      simp [Function.comp]
    rw [List.filter_map, hpred]
  have hne : d.Data.filter
      (fun r => decide ((getActorByName r.CheckpointName a).1 = none)) ≠ [] := by
    intro he
    rw [he] at h2
    simp at h2
  obtain ⟨rl, hrl⟩ : ∃ rl, (d.Data.filter
      (fun r => decide ((getActorByName r.CheckpointName a).1 = none))).getLast? = some rl := by
    rcases hg : (d.Data.filter
        (fun r => decide ((getActorByName r.CheckpointName a).1 = none))).getLast? with _ | rl
    · exact absurd (List.getLast?_eq_none_iff.mp hg) hne
    · exact ⟨rl, hg⟩
  have hrlkey : (getActorByName rl.CheckpointName a).1 = none := by
    have hmem : rl ∈ d.Data.filter
        (fun r => decide ((getActorByName r.CheckpointName a).1 = none)) :=
      List.mem_of_getLast?_eq_some hrl
    have := List.of_mem_filter hmem
    simpa using this
  have hkeyslen : ∀ (V : Type) (val : FCheckpointRecord → V),
      (foldPairs []
        (d.Data.map (fun r => ((getActorByName r.CheckpointName a).1, val r)))).length <
        d.Data.length := by
    intro V val
    have hlen : (foldPairs []
        (d.Data.map (fun r => ((getActorByName r.CheckpointName a).1, val r)))).length =
        (keysAccum []
          (d.Data.map (fun r => (getActorByName r.CheckpointName a).1))).length := by
      rw [← List.length_map _ Prod.fst, foldPairs_keys]
      have : ((d.Data.map (fun r => ((getActorByName r.CheckpointName a).1, val r))).map
          Prod.fst) = d.Data.map (fun r => (getActorByName r.CheckpointName a).1) := by
        rw [List.map_map]
        simp [Function.comp]
      rw [this]
      simp
    have hnodup : ¬(d.Data.map (fun r => (getActorByName r.CheckpointName a).1)).Nodup := by
      apply not_nodup_of_two_le_filter _ (none : Option AActor)
      rw [List.filter_map]
      have : ((fun x : Option AActor => decide (x = none)) ∘
          (fun r : FCheckpointRecord => (getActorByName r.CheckpointName a).1)) =
          (fun r : FCheckpointRecord =>
            decide ((getActorByName r.CheckpointName a).1 = none)) := by
        funext r
        simp [Function.comp]
      rw [this, List.length_map]
      exact h2
    have := keysAccum_length_lt
      (d.Data.map (fun r => (getActorByName r.CheckpointName a).1)) hnodup
    rw [List.length_map] at this
    rw [hlen]
    exact this
  refine ⟨by simp, ?_, ?_,
    hkeyslen Int (fun r : FCheckpointRecord => r.CheckpointFrameNumber),
    hkeyslen FNarrationKeys (fun r : FCheckpointRecord => checkpointNarration s r)⟩
  · rw [foldPairs_find, hfilter Int (fun r : FCheckpointRecord => r.CheckpointFrameNumber),
      List.getLast?_map, hrl]
    rfl
  · rw [foldPairs_find,
      hfilter FNarrationKeys (fun r : FCheckpointRecord => checkpointNarration s r),
      List.getLast?_map, hrl]
    rfl

/-- C10, witness: two records, neither resolving against an empty actor list;
the null key holds the second record's frame number and narration, the maps
have one entry while the actor sequence has two. -/
theorem C10_witness :
    2 ≤ ((⟨[recA, recB]⟩ : FCheckpointsData).Data.filter
        (fun r => decide ((getActorByName r.CheckpointName []).1 = none))).length ∧
      ((loadCheckpointsDataCore ⟨[recA, recB]⟩ [] []).1.ActorsToFollow.length =
          (⟨[recA, recB]⟩ : FCheckpointsData).Data.length ∧
        tmapFind? (loadCheckpointsDataCore ⟨[recA, recB]⟩ [] []).1.ActorFrameMap none =
          (((⟨[recA, recB]⟩ : FCheckpointsData).Data.filter
              (fun r => decide ((getActorByName r.CheckpointName []).1 = none))).getLast?).map
            (fun r => r.CheckpointFrameNumber) ∧
        tmapFind? (loadCheckpointsDataCore ⟨[recA, recB]⟩ [] []).1.ActorKeyMap none =
          (((⟨[recA, recB]⟩ : FCheckpointsData).Data.filter
              (fun r => decide ((getActorByName r.CheckpointName []).1 = none))).getLast?).map
            (fun r => checkpointNarration [] r) ∧
        (loadCheckpointsDataCore ⟨[recA, recB]⟩ [] []).1.ActorFrameMap.length <
          (⟨[recA, recB]⟩ : FCheckpointsData).Data.length ∧
        (loadCheckpointsDataCore ⟨[recA, recB]⟩ [] []).1.ActorKeyMap.length <
          (⟨[recA, recB]⟩ : FCheckpointsData).Data.length) :=
  ⟨by decide, C10_ok ⟨[recA, recB]⟩ [] [] (by decide)⟩

end GameData
